import Mathlib

set_option maxRecDepth 100000

/-!
Shallow embedding of `src/osrs_synth_extractor.py`.

Files are modelled as `List Nat` (one entry per byte).  A Python read
`f.seek(off); f.read(n)` becomes `(file.drop off).take n`, which matches
Python's truncating slice semantics at end of file.  Fallible code returns
`Except String` mirroring the raised exceptions; `None` results become
`Option`.  The `while` loop of `read_group_from_dat2` is embedded with an
explicit structural fuel argument; `read_group_from_dat2` instantiates the
fuel with `file_size`, which is always sufficient because each iteration
removes `min remaining 512 ≥ 1` from `remaining` (the fuel-irrelevance
theorems below make this precise).  The external library calls
`bz2.decompress` and `gzip.decompress` are taken as function parameters.
-/

def SECTOR_SIZE : Nat := 520

def HEADER_SIZE : Nat := 8

def DATA_SIZE : Nat := SECTOR_SIZE - HEADER_SIZE

/-- Embeds `read_medium`: `(b[0] << 16) | (b[1] << 8) | b[2]`.  Every call
site in the source passes exactly 3 bytes (after a length check), so the
default branch is never exercised. -/
def read_medium (b : List Nat) : Nat :=
  match b with
  | b0 :: b1 :: b2 :: _ => ((b0 <<< 16) ||| (b1 <<< 8)) ||| b2
  | _ => 0

/-- Embeds `read_index_entry`: seek to `group_id * 6`, read 6 bytes, return
`none` on a short read or a zero 24-bit length, else the (length, first
sector) pair. -/
def read_index_entry (idx : List Nat) (group_id : Nat) : Option (Nat × Nat) :=
  let entry := (idx.drop (group_id * 6)).take 6
  if entry.length < 6 then none
  else
    let file_size := read_medium (entry.take 3)
    let first_sector := read_medium ((entry.drop 3).take 3)
    if file_size = 0 then none
    else some (file_size, first_sector)

/-- The 520-byte block obtained by seeking to `sector_id * SECTOR_SIZE` and
reading `SECTOR_SIZE` bytes (possibly fewer at end of file). -/
def raw_of (dat2 : List Nat) (sector_id : Nat) : List Nat :=
  (dat2.drop (sector_id * SECTOR_SIZE)).take SECTOR_SIZE

/-- Whether a full 520-byte sector is available at `sector_id * SECTOR_SIZE`. -/
def sector_present (dat2 : List Nat) (sector_id : Nat) : Bool :=
  decide (SECTOR_SIZE ≤ (raw_of dat2 sector_id).length)

/-- The next-sector pointer of a sector: `read_medium(raw[4:7])`. -/
def next_of (dat2 : List Nat) (sector_id : Nat) : Nat :=
  read_medium (((raw_of dat2 sector_id).drop 4).take 3)

/-- The payload of a sector: `raw[HEADER_SIZE : HEADER_SIZE + DATA_SIZE]`. -/
def payload_of (dat2 : List Nat) (sector_id : Nat) : List Nat :=
  ((raw_of dat2 sector_id).drop HEADER_SIZE).take DATA_SIZE

/-- The `while remaining > 0 and sector_id != 0` loop of
`read_group_from_dat2`, with a structural fuel argument.  One unit of fuel
is one loop iteration; `remaining` shrinks by `min remaining DATA_SIZE ≥ 1`
per iteration, so any fuel `≥ remaining` (indeed `≥ ⌈remaining/512⌉`)
yields the loop's limit behaviour. -/
def read_group_loop (dat2 : List Nat) : Nat → Nat → Nat → Except String (List Nat)
  | 0, _, _ => Except.ok []
  | fuel + 1, remaining, sector_id =>
    if remaining = 0 ∨ sector_id = 0 then Except.ok []
    else
      let raw := (dat2.drop (sector_id * SECTOR_SIZE)).take SECTOR_SIZE
      if raw.length < SECTOR_SIZE then Except.error "Short read on dat2"
      else
        let next_sector := read_medium ((raw.drop 4).take 3)
        let data := (raw.drop HEADER_SIZE).take DATA_SIZE
        let to_take := min remaining DATA_SIZE
        match read_group_loop dat2 fuel (remaining - to_take) next_sector with
        | Except.error e => Except.error e
        | Except.ok rest => Except.ok (data.take to_take ++ rest)

/-- Embeds `read_group_from_dat2`.  The `archive_id` and `group_id`
arguments are kept (unused) exactly as in the source. -/
def read_group_from_dat2 (dat2 : List Nat) (archive_id group_id file_size first_sector : Nat) :
    Except String (List Nat) :=
  read_group_loop dat2 file_size file_size first_sector

/-- Embeds `struct.unpack(">I", b)` on an exactly-4-byte slice; `none`
models the `struct.error` raised on any other slice length. -/
def unpack_u32be (b : List Nat) : Option Nat :=
  match b with
  | [b0, b1, b2, b3] => some ((((b0 <<< 24) ||| (b1 <<< 16)) ||| (b2 <<< 8)) ||| b3)
  | _ => none

/-- Embeds `parse_js5_container`.  `none` models the `IndexError` /
`struct.error` raised when the buffer cannot hold the header.  The result
quadruple is `(compression_type, uncompressed_len, payload, remainder)`. -/
def parse_js5_container (buf : List Nat) : Option (Nat × Nat × List Nat × List Nat) :=
  match buf.head? with
  | none => none
  | some compression_type =>
    match unpack_u32be ((buf.drop 1).take 4) with
    | none => none
    | some comp_len =>
      if compression_type = 0 then
        some (compression_type, comp_len, (buf.drop 5).take comp_len, buf.drop (5 + comp_len))
      else
        match unpack_u32be ((buf.drop 5).take 4) with
        | none => none
        | some uncompressed_len =>
          some (compression_type, uncompressed_len,
                (buf.drop 9).take comp_len, buf.drop (9 + comp_len))

/-- The length-mismatch diagnostic of `decompress_js5`: `true` iff the
`print`ed warning line would be emitted. -/
def length_warning (data : List Nat) : Option Nat → Bool
  | some e => data.length != e
  | none => false

/-- Embeds `decompress_js5`.  The library decompressors are parameters;
the result pairs the returned bytes with the warning diagnostic, and
`Except.error` models the raised `ValueError`. -/
def decompress_js5 (bz2_decompress gzip_decompress : List Nat → List Nat)
    (compression_type : Nat) (payload : List Nat) (expected_len : Option Nat) :
    Except String (List Nat × Bool) :=
  if compression_type = 0 then
    Except.ok (payload, length_warning payload expected_len)
  else if compression_type = 1 then
    Except.ok (bz2_decompress payload, length_warning (bz2_decompress payload) expected_len)
  else if compression_type = 2 then
    Except.ok (gzip_decompress payload, length_warning (gzip_decompress payload) expected_len)
  else
    Except.error ("Unknown compression type " ++ toString compression_type)

/-- Embeds `extract_group`.  `idx` is the content of
`main_file_cache.idx{archive_id}` when that file exists.  `Except.ok none`
is the absence signal; `Except.error` models an uncaught exception. -/
def extract_group (dat2 : List Nat) (idx : Option (List Nat))
    (bz2_decompress gzip_decompress : List Nat → List Nat)
    (archive_id group_id : Nat) (raw : Bool) : Except String (Option (List Nat)) :=
  match idx with
  | none => Except.ok none
  | some idx_data =>
    match read_index_entry idx_data group_id with
    | none => Except.ok none
    | some (file_size, first_sector) =>
      match read_group_from_dat2 dat2 archive_id group_id file_size first_sector with
      | Except.error e => Except.error e
      | Except.ok container =>
        if raw then Except.ok (some container)
        else
          match parse_js5_container container with
          | none => Except.error "container header out of range"
          | some (compression_type, uncompressed_len, payload, _) =>
            match decompress_js5 bz2_decompress gzip_decompress
                compression_type payload (some uncompressed_len) with
            | Except.error e => Except.error e
            | Except.ok (data, _) => Except.ok (some data)

/-- Embeds the `for group_id in ids_to_extract` loop of `dump_index`
(lines 168-181 of the source): the extracted count is accumulated, a `none`
result is skipped, and — exactly as in the source, which has no
try/except — an exception from `extract_group` propagates and aborts the
loop.  File writes and printing are elided; the returned count is the one
the final report line would print. -/
def dump_index_loop (dat2 : List Nat) (idx : Option (List Nat))
    (bz2_decompress gzip_decompress : List Nat → List Nat) (raw : Bool) (archive_id : Nat) :
    List Nat → Nat → Except String Nat
  | [], extracted => Except.ok extracted
  | group_id :: rest, extracted =>
    match extract_group dat2 idx bz2_decompress gzip_decompress archive_id group_id raw with
    | Except.error e => Except.error e
    | Except.ok none =>
      dump_index_loop dat2 idx bz2_decompress gzip_decompress raw archive_id rest extracted
    | Except.ok (some _) =>
      dump_index_loop dat2 idx bz2_decompress gzip_decompress raw archive_id rest (extracted + 1)

/-- Spec-side characterization of a well-formed, fully present chain
(claim hypothesis): starting at `sector_id` with `remaining` bytes still
needed, every visited sector is fully readable and the walk never meets
sector id 0 before `remaining` reaches 0.  Fuel-structured exactly like
`read_group_loop`. -/
def chain_full (dat2 : List Nat) : Nat → Nat → Nat → Bool
  | 0, _, _ => true
  | fuel + 1, remaining, sector_id =>
    if remaining = 0 then true
    else if sector_id = 0 then false
    else sector_present dat2 sector_id &&
      chain_full dat2 fuel (remaining - min remaining DATA_SIZE) (next_of dat2 sector_id)

/-- Spec-side characterization of a chain that terminates early (claim
hypothesis): every visited sector is fully readable, but a zero
next-pointer is met while `remaining` is still positive. -/
def chain_broken (dat2 : List Nat) : Nat → Nat → Nat → Bool
  | 0, _, _ => false
  | fuel + 1, remaining, sector_id =>
    if remaining = 0 then false
    else if sector_id = 0 then true
    else sector_present dat2 sector_id &&
      chain_broken dat2 fuel (remaining - min remaining DATA_SIZE) (next_of dat2 sector_id)

/-- Demo data file: sector 0 unused, sector 1 holds a chain-terminating
sector (next-pointer bytes `[0,0,0]`) whose payload starts with byte 1. -/
def demo_dat2 : List Nat :=
  List.replicate SECTOR_SIZE 0 ++
    ([0, 0, 0, 0, 0, 0, 0, 0] ++ (1 :: List.replicate (DATA_SIZE - 1) 2))

/-- Demo data file with a cyclic chain: sector 1's next-pointer bytes are
`[0,0,1]`, pointing back to sector 1 itself. -/
def cyclic_dat2 : List Nat :=
  List.replicate SECTOR_SIZE 0 ++
    ([0, 0, 0, 0, 0, 0, 1, 0] ++ List.replicate DATA_SIZE 3)

/-- Demo index: group 0 has length 10 and first sector 1; group 1 is a
zero-length tombstone. -/
def demo_idx3 : List Nat := [0, 0, 10, 0, 0, 1, 0, 0, 0, 0, 0, 0]

/-- Demo data file whose group-0 container (10 bytes at sector 1) carries
the unsupported compression tag 99. -/
def demo_dat2_badtag : List Nat :=
  List.replicate SECTOR_SIZE 0 ++
    ([0, 0, 0, 0, 0, 0, 0, 0] ++
      ([99, 0, 0, 0, 1, 0, 0, 0, 7, 55] ++ List.replicate (DATA_SIZE - 10) 0))

/-- Demo pair for header-field independence: identical to `demo_dat2_pair_b`
except in sector 1's header bytes 0-3 and 7 (the owning-group, chunk-index
and owning-archive fields); next-pointer bytes 4-6 and the payload agree. -/
def demo_dat2_pair_a : List Nat :=
  List.replicate SECTOR_SIZE 0 ++
    ([7, 7, 7, 7, 0, 0, 0, 3] ++ (1 :: List.replicate (DATA_SIZE - 1) 2))

def demo_dat2_pair_b : List Nat :=
  List.replicate SECTOR_SIZE 0 ++
    ([9, 8, 7, 6, 0, 0, 0, 5] ++ (1 :: List.replicate (DATA_SIZE - 1) 2))

theorem DATA_SIZE_eq : DATA_SIZE = 512 := rfl

/-- The loop performs no iteration (and reads nothing) exactly when the
`while` condition fails: `remaining = 0` or `sector_id = 0`. -/
theorem read_group_loop_stop (dat2 : List Nat) (fuel r s : Nat) (h : r = 0 ∨ s = 0) :
    read_group_loop dat2 fuel r s = Except.ok [] := by
  cases fuel with
  | zero => rfl
  | succ f =>
    simp only [read_group_loop]
    rw [if_pos h]

/-- One iteration of the loop on a fully readable sector: it consumes
`min remaining DATA_SIZE` payload bytes of sector `s` and continues at the
decoded next-sector pointer. -/
theorem read_group_loop_step (dat2 : List Nat) (f r s : Nat) (hr : r ≠ 0) (hs : s ≠ 0)
    (hpres : sector_present dat2 s = true) :
    read_group_loop dat2 (f + 1) r s =
      match read_group_loop dat2 f (r - min r DATA_SIZE) (next_of dat2 s) with
      | Except.error e => Except.error e
      | Except.ok rest => Except.ok ((payload_of dat2 s).take (min r DATA_SIZE) ++ rest) := by
  have hc : ¬(r = 0 ∨ s = 0) := by tauto
  have hlen : ¬(((dat2.drop (s * SECTOR_SIZE)).take SECTOR_SIZE).length < SECTOR_SIZE) := by
    simp only [sector_present, raw_of, decide_eq_true_eq] at hpres
    omega
  simp only [read_group_loop]
  rw [if_neg hc, if_neg hlen]
  rfl

theorem payload_of_length (dat2 : List Nat) (s : Nat) (hpres : sector_present dat2 s = true) :
    (payload_of dat2 s).length = DATA_SIZE := by
  simp only [sector_present, raw_of, decide_eq_true_eq] at hpres
  simp only [payload_of, raw_of, List.length_take, List.length_drop, SECTOR_SIZE,
    HEADER_SIZE, DATA_SIZE] at *
  omega

/-- A fully present chain delivers the loop's success case with exactly
`remaining` bytes, for any fuel at least `remaining`. -/
theorem chain_full_ok (dat2 : List Nat) :
    ∀ fuel remaining sector_id, remaining ≤ fuel →
      chain_full dat2 fuel remaining sector_id = true →
      ∃ buf, read_group_loop dat2 fuel remaining sector_id = Except.ok buf ∧
        buf.length = remaining := by
  intro fuel
  induction fuel with
  | zero =>
    intro r s hr _
    have h0 : r = 0 := Nat.le_zero.mp hr
    subst h0
    exact ⟨[], rfl, rfl⟩
  | succ f ih =>
    intro r s hr hc
    by_cases hr0 : r = 0
    · subst hr0
      exact ⟨[], read_group_loop_stop dat2 (f + 1) 0 s (Or.inl rfl), rfl⟩
    · by_cases hs0 : s = 0
      · simp only [chain_full, if_neg hr0, if_pos hs0] at hc
        exact absurd hc (by simp)
      · simp only [chain_full, if_neg hr0, if_neg hs0, Bool.and_eq_true] at hc
        obtain ⟨hpres, hrest⟩ := hc
        have hmin : 1 ≤ min r DATA_SIZE := by
          rw [DATA_SIZE_eq]; omega
        have hfuel : r - min r DATA_SIZE ≤ f := by omega
        obtain ⟨rest, hrest_eq, hlen⟩ := ih (r - min r DATA_SIZE) (next_of dat2 s) hfuel hrest
        refine ⟨(payload_of dat2 s).take (min r DATA_SIZE) ++ rest, ?_, ?_⟩
        · rw [read_group_loop_step dat2 f r s hr0 hs0 hpres, hrest_eq]
        · rw [List.length_append, List.length_take, payload_of_length dat2 s hpres, hlen,
            DATA_SIZE_eq]
          omega

/-- One iteration on a sector that cannot be fully read raises the fatal
IOError of the source. -/
theorem read_group_loop_short (dat2 : List Nat) (f r s : Nat) (hr : r ≠ 0) (hs : s ≠ 0)
    (hshort : ((dat2.drop (s * SECTOR_SIZE)).take SECTOR_SIZE).length < SECTOR_SIZE) :
    read_group_loop dat2 (f + 1) r s = Except.error "Short read on dat2" := by
  have hc : ¬(r = 0 ∨ s = 0) := by tauto
  simp only [read_group_loop]
  rw [if_neg hc, if_pos hshort]

/-- Fuel irrelevance: any fuel of at least `⌈r / DATA_SIZE⌉` iterations
yields the same result, because `remaining` shrinks by
`min remaining DATA_SIZE ≥ 1` per iteration.  This is the termination bound
of the embedded `while` loop. -/
theorem read_group_loop_fuel (dat2 : List Nat) :
    ∀ f1 f2 r s, (r + (DATA_SIZE - 1)) / DATA_SIZE ≤ f1 →
      (r + (DATA_SIZE - 1)) / DATA_SIZE ≤ f2 →
      read_group_loop dat2 f1 r s = read_group_loop dat2 f2 r s := by
  intro f1
  induction f1 with
  | zero =>
    intro f2 r s h1 _
    have hr : r = 0 := by rw [DATA_SIZE_eq] at h1; omega
    subst hr
    rw [read_group_loop_stop dat2 f2 0 s (Or.inl rfl)]
    rfl
  | succ f ih =>
    intro f2 r s h1 h2
    by_cases hstop : r = 0 ∨ s = 0
    · rw [read_group_loop_stop dat2 _ r s hstop, read_group_loop_stop dat2 _ r s hstop]
    · push_neg at hstop
      obtain ⟨hr0, hs0⟩ := hstop
      cases f2 with
      | zero =>
        exfalso
        rw [DATA_SIZE_eq] at h2
        omega
      | succ f2' =>
        by_cases hpres : sector_present dat2 s = true
        · have hA : (r - min r DATA_SIZE + (DATA_SIZE - 1)) / DATA_SIZE ≤ f := by
            rw [DATA_SIZE_eq] at *
            omega
          have hB : (r - min r DATA_SIZE + (DATA_SIZE - 1)) / DATA_SIZE ≤ f2' := by
            rw [DATA_SIZE_eq] at *
            omega
          rw [read_group_loop_step dat2 f r s hr0 hs0 hpres,
            read_group_loop_step dat2 f2' r s hr0 hs0 hpres,
            ih f2' (r - min r DATA_SIZE) (next_of dat2 s) hA hB]
        · have hshort : ((dat2.drop (s * SECTOR_SIZE)).take SECTOR_SIZE).length < SECTOR_SIZE := by
            simp only [sector_present, raw_of, decide_eq_true_eq] at hpres
            omega
          rw [read_group_loop_short dat2 f r s hr0 hs0 hshort,
            read_group_loop_short dat2 f2' r s hr0 hs0 hshort]

/-- Shifting a window inside a sector slice: a sub-slice of a 520-byte
sector slice is the corresponding slice of the underlying file. -/
theorem slice_shift (l : List Nat) (n a b k : Nat) (h : b + k ≤ a) :
    (((l.drop n).take a).drop b).take k = (l.drop (n + b)).take k := by
  rw [List.drop_take, List.drop_drop, List.take_take]
  congr 1
  omega

/-- The chain walk reads only the next-pointer bytes `[4:7]` and the
payload bytes `[8:520]` of each sector (plus overall file length): two data
files that agree on those produce identical loop results. -/
theorem read_group_loop_congr (dat2 dat2' : List Nat)
    (hlen : dat2.length = dat2'.length)
    (hnext : ∀ t, t < (dat2.length + (SECTOR_SIZE - 1)) / SECTOR_SIZE →
      (dat2.drop (t * SECTOR_SIZE + 4)).take 3 = (dat2'.drop (t * SECTOR_SIZE + 4)).take 3)
    (hpay : ∀ t, t < (dat2.length + (SECTOR_SIZE - 1)) / SECTOR_SIZE →
      (dat2.drop (t * SECTOR_SIZE + HEADER_SIZE)).take DATA_SIZE =
        (dat2'.drop (t * SECTOR_SIZE + HEADER_SIZE)).take DATA_SIZE) :
    ∀ fuel r s, read_group_loop dat2 fuel r s = read_group_loop dat2' fuel r s := by
  intro fuel
  induction fuel with
  | zero => intro r s; rfl
  | succ f ih =>
    intro r s
    by_cases hstop : r = 0 ∨ s = 0
    · rw [read_group_loop_stop dat2 _ r s hstop, read_group_loop_stop dat2' _ r s hstop]
    · push_neg at hstop
      obtain ⟨hr0, hs0⟩ := hstop
      by_cases hpres : sector_present dat2 s = true
      · have hpres' : sector_present dat2' s = true := by
          simp only [sector_present, raw_of, List.length_take, List.length_drop,
            decide_eq_true_eq] at *
          omega
        have hin : s < (dat2.length + (SECTOR_SIZE - 1)) / SECTOR_SIZE := by
          simp only [sector_present, raw_of, List.length_take, List.length_drop,
            decide_eq_true_eq, SECTOR_SIZE] at hpres ⊢
          omega
        have hnx : next_of dat2 s = next_of dat2' s := by
          unfold next_of raw_of
          rw [slice_shift dat2 (s * SECTOR_SIZE) SECTOR_SIZE 4 3 (by decide),
            slice_shift dat2' (s * SECTOR_SIZE) SECTOR_SIZE 4 3 (by decide),
            hnext s hin]
        have hpl : payload_of dat2 s = payload_of dat2' s := by
          unfold payload_of raw_of
          rw [slice_shift dat2 (s * SECTOR_SIZE) SECTOR_SIZE HEADER_SIZE DATA_SIZE (by decide),
            slice_shift dat2' (s * SECTOR_SIZE) SECTOR_SIZE HEADER_SIZE DATA_SIZE (by decide),
            hpay s hin]
        rw [read_group_loop_step dat2 f r s hr0 hs0 hpres,
          read_group_loop_step dat2' f r s hr0 hs0 hpres',
          hnx, hpl, ih (r - min r DATA_SIZE) (next_of dat2' s)]
      · have hpres' : ¬(sector_present dat2' s = true) := by
          simp only [sector_present, raw_of, List.length_take, List.length_drop,
            decide_eq_true_eq] at *
          omega
        have hshort : ((dat2.drop (s * SECTOR_SIZE)).take SECTOR_SIZE).length < SECTOR_SIZE := by
          simp only [sector_present, raw_of, decide_eq_true_eq] at hpres
          omega
        have hshort' : ((dat2'.drop (s * SECTOR_SIZE)).take SECTOR_SIZE).length < SECTOR_SIZE := by
          simp only [sector_present, raw_of, decide_eq_true_eq] at hpres'
          omega
        rw [read_group_loop_short dat2 f r s hr0 hs0 hshort,
          read_group_loop_short dat2' f r s hr0 hs0 hshort']

/-- A chain that hits a zero next-pointer early delivers the loop's success
case with strictly fewer than `remaining` bytes. -/
theorem chain_broken_ok (dat2 : List Nat) :
    ∀ fuel remaining sector_id, remaining ≤ fuel →
      chain_broken dat2 fuel remaining sector_id = true →
      ∃ buf, read_group_loop dat2 fuel remaining sector_id = Except.ok buf ∧
        buf.length < remaining := by
  intro fuel
  induction fuel with
  | zero =>
    intro r s _ hc
    exact absurd hc (by simp [chain_broken])
  | succ f ih =>
    intro r s hr hc
    by_cases hr0 : r = 0
    · subst hr0
      simp [chain_broken] at hc
    · by_cases hs0 : s = 0
      · refine ⟨[], read_group_loop_stop dat2 (f + 1) r s (Or.inr hs0), ?_⟩
        simpa using Nat.pos_of_ne_zero hr0
      · simp only [chain_broken, if_neg hr0, if_neg hs0, Bool.and_eq_true] at hc
        obtain ⟨hpres, hrest⟩ := hc
        have hmin : 1 ≤ min r DATA_SIZE := by
          rw [DATA_SIZE_eq]; omega
        have hfuel : r - min r DATA_SIZE ≤ f := by omega
        obtain ⟨rest, hrest_eq, hlen⟩ := ih (r - min r DATA_SIZE) (next_of dat2 s) hfuel hrest
        refine ⟨(payload_of dat2 s).take (min r DATA_SIZE) ++ rest, ?_, ?_⟩
        · rw [read_group_loop_step dat2 f r s hr0 hs0 hpres, hrest_eq]
        · rw [List.length_append, List.length_take, payload_of_length dat2 s hpres,
            DATA_SIZE_eq] at *
          omega

/-- Claim C1: for every data file, declared length L > 0 and first sector
s > 0, if the sector chain is well-formed and fully present then
`read_group_from_dat2` returns exactly L bytes; if the chain's next-pointer
reaches 0 before L bytes are collected it returns a strictly shorter
buffer; the loop stops exactly when `remaining = 0` or the sector id is 0,
and each iteration prepends the `min remaining DATA_SIZE`-byte slice of the
current sector's payload. -/
theorem C1_reassembly (dat2 : List Nat) (a g L s : Nat) (hL : 0 < L) (hs : 0 < s) :
    (chain_full dat2 L L s = true →
      ∃ buf, read_group_from_dat2 dat2 a g L s = Except.ok buf ∧ buf.length = L) ∧
    (chain_broken dat2 L L s = true →
      ∃ buf, read_group_from_dat2 dat2 a g L s = Except.ok buf ∧ buf.length < L) ∧
    (∀ fuel r t, r = 0 ∨ t = 0 → read_group_loop dat2 fuel r t = Except.ok []) ∧
    (∀ fuel r t, r ≠ 0 → t ≠ 0 → sector_present dat2 t = true →
      read_group_loop dat2 (fuel + 1) r t =
        match read_group_loop dat2 fuel (r - min r DATA_SIZE) (next_of dat2 t) with
        | Except.error e => Except.error e
        | Except.ok rest => Except.ok ((payload_of dat2 t).take (min r DATA_SIZE) ++ rest)) := by
  refine ⟨?_, ?_, ?_, ?_⟩
  · intro hc
    exact chain_full_ok dat2 L L s le_rfl hc
  · intro hc
    exact chain_broken_ok dat2 L L s le_rfl hc
  · intro fuel r t h
    exact read_group_loop_stop dat2 fuel r t h
  · intro fuel r t h1 h2 h3
    exact read_group_loop_step dat2 fuel r t h1 h2 h3

/-- Claim C1 witness: on the demo cache, group length 10 at sector 1 is a
fully present chain and reassembly returns exactly 10 bytes; the loop with
`remaining = 0` performs no iteration. -/
theorem C1_reassembly_witness :
    (∃ buf, read_group_from_dat2 demo_dat2 4 0 10 1 = Except.ok buf ∧ buf.length = 10) ∧
    read_group_loop demo_dat2 3 0 5 = Except.ok [] :=
  ⟨(C1_reassembly demo_dat2 4 0 10 1 (by decide) (by decide)).1 (by decide),
   (C1_reassembly demo_dat2 4 0 10 1 (by decide) (by decide)).2.2.1 3 0 5 (Or.inl rfl)⟩

/-- Claim C2: `parse_js5_container` decodes byte 0 as the tag and bytes
[1:5] as the big-endian u32 compressed length K; tag 0 yields uncompressed
length K and payload at offset 5, a nonzero tag reads the uncompressed
length from bytes [5:9] and the payload at offset 9; trailing bytes are the
unconsumed remainder; and the concrete 9-byte header scenario parses to
tag 2, compressed length 5, uncompressed length 10. -/
theorem C2_parse_container (buf : List Nat) :
    (∀ t K, buf.head? = some t → unpack_u32be ((buf.drop 1).take 4) = some K →
      (t = 0 → parse_js5_container buf =
        some (0, K, (buf.drop 5).take K, buf.drop (5 + K))) ∧
      (∀ U, t ≠ 0 → unpack_u32be ((buf.drop 5).take 4) = some U →
        parse_js5_container buf =
          some (t, U, (buf.drop 9).take K, buf.drop (9 + K)))) ∧
    (∀ p : List Nat, p.length = 5 →
      parse_js5_container ([2, 0, 0, 0, 5, 0, 0, 0, 10] ++ p) = some (2, 10, p, [])) := by
  constructor
  · intro t K ht hK
    constructor
    · intro ht0
      subst ht0
      simp only [parse_js5_container, ht, hK]
      simp
    · intro U htne hU
      simp only [parse_js5_container, ht, hK, hU, if_neg htne]
  · intro p hp
    rcases p with _ | ⟨a, p⟩
    · simp at hp
    rcases p with _ | ⟨b, p⟩
    · simp at hp
    rcases p with _ | ⟨c, p⟩
    · simp at hp
    rcases p with _ | ⟨d, p⟩
    · simp at hp
    rcases p with _ | ⟨e, p⟩
    · simp at hp
    rcases p with _ | ⟨f, p⟩
    · rfl
    · simp at hp

/-- Claim C2 witness: a store container (tag 0) and the concrete tag-2
scenario of the claim, both at explicit inputs. -/
theorem C2_parse_container_witness :
    parse_js5_container [0, 0, 0, 0, 3, 7, 8, 9, 1] = some (0, 3, [7, 8, 9], [1]) ∧
    parse_js5_container ([2, 0, 0, 0, 5, 0, 0, 0, 10] ++ [11, 12, 13, 14, 15]) =
      some (2, 10, [11, 12, 13, 14, 15], []) := by
  constructor
  · have h := ((C2_parse_container [0, 0, 0, 0, 3, 7, 8, 9, 1]).1 0 3 rfl (by decide)).1 rfl
    exact h.trans (by decide)
  · exact (C2_parse_container []).2 [11, 12, 13, 14, 15] rfl

/-- Claim C4: `read_index_entry` reads the 6 bytes at offset
`group_id * 6`, returns `none` both when fewer than 6 bytes are available
and when the 24-bit big-endian length (bytes [0:3]) is 0, and otherwise
returns the length together with the 24-bit big-endian first sector (bytes
[3:6]); an all-zero entry at offset 0 yields `none` for group id 0. -/
theorem C4_index_lookup (idx : List Nat) (gid : Nat) :
    (((idx.drop (gid * 6)).take 6).length < 6 → read_index_entry idx gid = none) ∧
    (((idx.drop (gid * 6)).take 6).length = 6 →
      (read_medium (((idx.drop (gid * 6)).take 6).take 3) = 0 →
        read_index_entry idx gid = none) ∧
      (read_medium (((idx.drop (gid * 6)).take 6).take 3) ≠ 0 →
        read_index_entry idx gid =
          some (read_medium (((idx.drop (gid * 6)).take 6).take 3),
            read_medium ((((idx.drop (gid * 6)).take 6).drop 3).take 3)))) ∧
    read_index_entry (List.replicate 6 0) 0 = none := by
  refine ⟨?_, ?_, by decide⟩
  · intro h
    simp only [read_index_entry]
    rw [if_pos h]
  · intro hlen
    constructor
    · intro h0
      simp only [read_index_entry]
      rw [if_neg (by omega), if_pos h0]
    · intro h0
      simp only [read_index_entry]
      rw [if_neg (by omega), if_neg h0]

/-- Claim C4 witness: a populated entry, a too-short index, and the
zero-length tombstone, at explicit inputs. -/
theorem C4_index_lookup_witness :
    read_index_entry [0, 0, 1, 0, 0, 2] 0 = some (1, 2) ∧
    read_index_entry [5, 5, 5] 0 = none := by
  constructor
  · have h := ((C4_index_lookup [0, 0, 1, 0, 0, 2] 0).2.1 (by decide)).2 (by decide)
    exact h.trans (by decide)
  · exact (C4_index_lookup [5, 5, 5] 0).1 (by decide)

/-- Claim C5: `decompress_js5` is the identity for tag 0, applies bzip2 for
tag 1 and gzip for tag 2, and raises the unsupported-compression format
error precisely for every tag outside {0, 1, 2}. -/
theorem C5_dispatch (bz gz : List Nat → List Nat) (t : Nat) (payload : List Nat)
    (e : Option Nat) :
    (t = 0 → decompress_js5 bz gz t payload e =
      Except.ok (payload, length_warning payload e)) ∧
    (t = 1 → decompress_js5 bz gz t payload e =
      Except.ok (bz payload, length_warning (bz payload) e)) ∧
    (t = 2 → decompress_js5 bz gz t payload e =
      Except.ok (gz payload, length_warning (gz payload) e)) ∧
    ((∃ msg, decompress_js5 bz gz t payload e = Except.error msg) ↔
      ¬(t = 0 ∨ t = 1 ∨ t = 2)) := by
  refine ⟨?_, ?_, ?_, ?_⟩
  · intro h
    subst h
    rfl
  · intro h
    subst h
    rfl
  · intro h
    subst h
    rfl
  · constructor
    · rintro ⟨msg, hmsg⟩ hcase
      rcases hcase with rfl | rfl | rfl <;> simp [decompress_js5] at hmsg
    · intro h
      push_neg at h
      obtain ⟨h0, h1, h2⟩ := h
      exact ⟨"Unknown compression type " ++ toString t,
        by simp [decompress_js5, h0, h1, h2]⟩

/-- Claim C5 witness: tag 1 dispatches to the bzip2 parameter, and tag 99
raises the format error. -/
theorem C5_dispatch_witness :
    decompress_js5 id id 1 [1, 2] none = Except.ok ([1, 2], false) ∧
    ∃ msg, decompress_js5 id id 99 [] none = Except.error msg :=
  ⟨(C5_dispatch id id 1 [1, 2] none).2.1 rfl,
   (C5_dispatch id id 99 [] none).2.2.2.mpr (by decide)⟩

/-- Claim C6: for a supported tag, the bytes returned by `decompress_js5`
are identical whatever the expected length is; a length mismatch only sets
the non-fatal warning diagnostic. -/
theorem C6_lenient (bz gz : List Nat → List Nat) (t : Nat) (payload : List Nat)
    (ht : t = 0 ∨ t = 1 ∨ t = 2) (e1 e2 : Option Nat) :
    ∃ data w1 w2,
      decompress_js5 bz gz t payload e1 = Except.ok (data, w1) ∧
      decompress_js5 bz gz t payload e2 = Except.ok (data, w2) ∧
      (∀ n, e1 = some n → (w1 = true ↔ data.length ≠ n)) ∧
      (e1 = none → w1 = false) := by
  rcases ht with rfl | rfl | rfl <;>
    · refine ⟨_, _, _, rfl, rfl, ?_, ?_⟩
      · intro n hn
        subst hn
        simp [length_warning]
      · intro hn
        subst hn
        rfl

/-- Claim C6 witness: identity decompression of 3 bytes against expected
lengths 5 and none returns the same bytes, with only the warning flag
differing. -/
theorem C6_lenient_witness :
    decompress_js5 id id 0 [1, 2, 3] (some 5) = Except.ok ([1, 2, 3], true) ∧
    decompress_js5 id id 0 [1, 2, 3] none = Except.ok ([1, 2, 3], false) := by
  obtain ⟨data, w1, w2, h1, h2, h3, _⟩ :=
    C6_lenient id id 0 [1, 2, 3] (Or.inl rfl) (some 5) none
  exact ⟨rfl, rfl⟩

/-- Claim C7: each iteration seeks to `current_sector * 520` and must
obtain exactly 520 bytes; a shorter read makes both the loop and
`read_group_from_dat2` fail with the fatal short-read IOError instead of
returning any buffer. -/
theorem C7_short_sector (dat2 : List Nat) (a g fuel r s : Nat) (hr : 0 < r) (hs : s ≠ 0)
    (hshort : ((dat2.drop (s * SECTOR_SIZE)).take SECTOR_SIZE).length < SECTOR_SIZE) :
    read_group_loop dat2 (fuel + 1) r s = Except.error "Short read on dat2" ∧
    read_group_from_dat2 dat2 a g r s = Except.error "Short read on dat2" := by
  constructor
  · exact read_group_loop_short dat2 fuel r s (by omega) hs hshort
  · obtain ⟨k, rfl⟩ : ∃ k, r = k + 1 := ⟨r - 1, by omega⟩
    exact read_group_loop_short dat2 k (k + 1) s (by omega) hs hshort

/-- Claim C7 witness: on an empty data file, sector 1 cannot be read and
reassembly of a 5-byte group fails fatally. -/
theorem C7_short_sector_witness :
    read_group_loop [] 1 5 1 = Except.error "Short read on dat2" ∧
    read_group_from_dat2 [] 4 0 5 1 = Except.error "Short read on dat2" :=
  C7_short_sector [] 4 0 0 5 1 (by decide) (by decide) (by decide)

/-- Claim C8: for 0 < L ≤ 512 and a present first sector, reassembly reads
exactly one sector and returns its first L payload bytes (the result is
built from sector `s` alone, whatever the rest of the chain holds); when
the remaining length is divisible by 512, the sector contributes its full
untruncated 512-byte payload, whose length is exactly `DATA_SIZE`. -/
theorem C8_boundaries (dat2 : List Nat) (a g L s : Nat) (hL : 0 < L) (hs : s ≠ 0)
    (hpres : sector_present dat2 s = true) :
    (L ≤ DATA_SIZE → read_group_from_dat2 dat2 a g L s =
      Except.ok ((payload_of dat2 s).take L)) ∧
    (DATA_SIZE ∣ L → ∀ fuel, read_group_loop dat2 (fuel + 1) L s =
      match read_group_loop dat2 fuel (L - DATA_SIZE) (next_of dat2 s) with
      | Except.error e => Except.error e
      | Except.ok rest => Except.ok (payload_of dat2 s ++ rest)) ∧
    (payload_of dat2 s).length = DATA_SIZE := by
  refine ⟨?_, ?_, payload_of_length dat2 s hpres⟩
  · intro hle
    obtain ⟨k, rfl⟩ : ∃ k, L = k + 1 := ⟨L - 1, by omega⟩
    show read_group_loop dat2 (k + 1) (k + 1) s = _
    rw [read_group_loop_step dat2 k (k + 1) s (by omega) hs hpres]
    have hmin : min (k + 1) DATA_SIZE = k + 1 := by
      rw [DATA_SIZE_eq] at *
      omega
    rw [hmin, Nat.sub_self,
      read_group_loop_stop dat2 k 0 (next_of dat2 s) (Or.inl rfl)]
    simp
  · intro hdvd fuel
    have hge : DATA_SIZE ≤ L := Nat.le_of_dvd hL hdvd
    have hmin : min L DATA_SIZE = DATA_SIZE := by omega
    rw [read_group_loop_step dat2 fuel L s (by omega) hs hpres, hmin,
      List.take_of_length_le (le_of_eq (payload_of_length dat2 s hpres))]

/-- Claim C8 witness: on the demo cache, a 5-byte group is served from
sector 1 alone, and with L = 512 the step contributes the full payload. -/
theorem C8_boundaries_witness :
    read_group_from_dat2 demo_dat2 4 0 5 1 = Except.ok ((payload_of demo_dat2 1).take 5) ∧
    read_group_loop demo_dat2 1 512 1 =
      match read_group_loop demo_dat2 0 0 (next_of demo_dat2 1) with
      | Except.error e => Except.error e
      | Except.ok rest => Except.ok (payload_of demo_dat2 1 ++ rest) :=
  ⟨(C8_boundaries demo_dat2 4 0 5 1 (by decide) (by decide) (by decide)).1 (by decide),
   (C8_boundaries demo_dat2 4 0 512 1 (by decide) (by decide) (by decide)).2.1
     ⟨1, by decide⟩ 0⟩

/-- Claim C9: the reassembly loop terminates after at most ⌈L / 512⌉
iterations — any fuel of at least that many iterations already yields the
final result of `read_group_from_dat2`, even on a cyclic sector chain —
because `remaining` strictly decreases by `min remaining DATA_SIZE ≥ 1` on
every iteration. -/
theorem C9_termination (dat2 : List Nat) (a g L s fuel : Nat)
    (h : (L + (DATA_SIZE - 1)) / DATA_SIZE ≤ fuel) :
    read_group_loop dat2 fuel L s = read_group_from_dat2 dat2 a g L s ∧
    (∀ r, 0 < r → r - min r DATA_SIZE < r) := by
  constructor
  · show read_group_loop dat2 fuel L s = read_group_loop dat2 L L s
    apply read_group_loop_fuel dat2 fuel L L s h
    rw [DATA_SIZE_eq]
    omega
  · intro r hr
    rw [DATA_SIZE_eq]
    omega

/-- Claim C9 witness: on the cyclic demo chain (sector 1 points to itself),
2 = ⌈600 / 512⌉ iterations already produce the final result of reassembling
600 bytes. -/
theorem C9_termination_witness :
    read_group_loop cyclic_dat2 2 600 1 = read_group_from_dat2 cyclic_dat2 4 7 600 1 ∧
    (600 : Nat) - min 600 DATA_SIZE < 600 := by
  obtain ⟨h1, h2⟩ := C9_termination cyclic_dat2 4 7 600 1 2 (by decide)
  exact ⟨h1, h2 600 (by decide)⟩

/-- Claim C10: the result of `read_group_from_dat2` depends neither on its
`archive_id` / `group_id` arguments nor on the sectors' owning-group,
chunk-index or owning-archive header fields: two data files of equal length
agreeing on every sector's next-pointer bytes [4:7] and payload bytes
[8:520] yield identical output for any two argument pairs. -/
theorem C10_content_independence (dat2 dat2' : List Nat) (a g a2 g2 L s : Nat)
    (hlen : dat2.length = dat2'.length)
    (hnext : ∀ t, t < (dat2.length + (SECTOR_SIZE - 1)) / SECTOR_SIZE →
      (dat2.drop (t * SECTOR_SIZE + 4)).take 3 = (dat2'.drop (t * SECTOR_SIZE + 4)).take 3)
    (hpay : ∀ t, t < (dat2.length + (SECTOR_SIZE - 1)) / SECTOR_SIZE →
      (dat2.drop (t * SECTOR_SIZE + HEADER_SIZE)).take DATA_SIZE =
        (dat2'.drop (t * SECTOR_SIZE + HEADER_SIZE)).take DATA_SIZE) :
    read_group_from_dat2 dat2 a g L s = read_group_from_dat2 dat2' a2 g2 L s :=
  read_group_loop_congr dat2 dat2' hlen hnext hpay L L s

/-- Claim C10 witness: two demo data files differing only in sector 1's
owning-group, chunk-index and owning-archive header bytes, read with
different archive and group ids, reassemble identically. -/
theorem C10_content_independence_witness :
    read_group_from_dat2 demo_dat2_pair_a 4 100 20 1 =
      read_group_from_dat2 demo_dat2_pair_b 14 200 20 1 :=
  C10_content_independence demo_dat2_pair_a demo_dat2_pair_b 4 100 14 200 20 1
    (by decide) (by decide) (by decide)

/-- Claim C3 counterexample: in a bulk run over groups [0, 1] whose group 0
container carries the unsupported tag 99, the `dump_index` loop does NOT
continue with group 1 and does NOT report an extracted count — the
format-error exception propagates out of the loop (the source has no
try/except around `extract_group`), aborting the bulk run. -/
theorem C3_counterexample :
    dump_index_loop demo_dat2_badtag (some demo_idx3) id id false 4 [0, 1] 0 =
      Except.error "Unknown compression type 99" ∧
    ¬ dump_index_loop demo_dat2_badtag (some demo_idx3) id id false 4 [0, 1] 0 =
      Except.ok 0 := by
  have h1 : dump_index_loop demo_dat2_badtag (some demo_idx3) id id false 4 [0, 1] 0 =
      Except.error "Unknown compression type 99" := rfl
  exact ⟨h1, fun h => Except.noConfusion (h1.symm.trans h)⟩

/-- Claim C3 amended: if every group before `g` extracts cleanly and `g`'s
extraction raises a format error, the `dump_index` loop aborts with that
error — the remaining ids (any `post`) are never attempted and the
extracted count is never returned. -/
theorem C3_amended_propagation (dat2 : List Nat) (idx : Option (List Nat))
    (bz gz : List Nat → List Nat) (raw : Bool) (a : Nat) (g : Nat) (e : String)
    (post : List Nat) :
    ∀ pre acc, (∀ g2 ∈ pre, ∃ v, extract_group dat2 idx bz gz a g2 raw = Except.ok v) →
      extract_group dat2 idx bz gz a g raw = Except.error e →
      dump_index_loop dat2 idx bz gz raw a (pre ++ g :: post) acc = Except.error e := by
  intro pre
  induction pre with
  | nil =>
    intro acc _ hg
    simp only [List.nil_append, dump_index_loop, hg]
  | cons p pre ih =>
    intro acc hpre hg
    obtain ⟨v, hv⟩ := hpre p (by simp)
    have hrest : ∀ g2 ∈ pre, ∃ v, extract_group dat2 idx bz gz a g2 raw = Except.ok v := by
      intro g2 hmem
      exact hpre g2 (by simp [hmem])
    cases v with
    | none =>
      simp only [List.cons_append, dump_index_loop, hv]
      exact ih acc hrest hg
    | some d =>
      simp only [List.cons_append, dump_index_loop, hv]
      exact ih (acc + 1) hrest hg

/-- Claim C3 witness (for the amended claim): on the demo cache with the
tag-99 container at group 0, the loop over [0, 1] starting from count 5
aborts with the format error. -/
theorem C3_amended_propagation_witness :
    dump_index_loop demo_dat2_badtag (some demo_idx3) id id false 4 [0, 1] 5 =
      Except.error "Unknown compression type 99" :=
  C3_amended_propagation demo_dat2_badtag (some demo_idx3) id id false 4 0
    "Unknown compression type 99" [1] [] 5 (by simp) (by rfl)
